import Mathlib

/-!
Verification development for the go-map-schema comparison engine
(package schema: schema.go, lang.go, errors file of the same package).

The Go code is reflection-based; we embed the fragment of Go's type and
value universe that the library manipulates:

* `GoType` covers the kinds the code inspects (`reflect.Kind` cases used:
  the integer kinds, the float kinds, string, bool, pointer, struct, map).
  Two map types are included: `tMapSI` is `map[string]interface{}` (the
  type JSON decoding produces) and `tMapSS` stands for a mapping of a
  different concrete type (such as `map[string]string`); both have
  `reflect.Kind` Map, but only `tMapSI` satisfies the type assertion
  `.(map[string]interface{})` performed by `compare`.
* `SrcVal` is a dynamically typed source value as stored in the
  `map[string]interface{}` given to `CompareMapToStruct`: `vNull` is the
  nil interface value (`reflect.ValueOf` of it is invalid), and the other
  constructors carry their runtime type.  JSON numbers are modelled as
  rationals: every concrete numeric value the library's contract speaks
  about (integral values, halves, small negatives) is an exactly
  representable float64, and `math.Trunc(f) == f` is exactly
  "denominator 1" on those values.
* Go functions that can panic are embedded with an `Option`/sum result
  where `none` (or `.panic`) is a run-time panic: `compare` panics via
  `t.NumField()` on a non-struct and via the type assertion
  `src[fieldName].(map[string]interface{})`, and
  `typeNameStartsWithVowel` panics via `t[:1]` on an empty string.
-/

namespace MapSchema

mutual

/-- A Go type, restricted to the kinds the schema library inspects. -/
inductive GoType : Type where
  | tBool : GoType
  | tString : GoType
  | tInt : GoType
  | tInt8 : GoType
  | tInt16 : GoType
  | tInt32 : GoType
  | tInt64 : GoType
  | tUint : GoType
  | tUint8 : GoType
  | tUint16 : GoType
  | tUint32 : GoType
  | tUint64 : GoType
  | tFloat32 : GoType
  | tFloat64 : GoType
  | tPtr (elem : GoType) : GoType
  | tMapSI : GoType
  | tMapSS : GoType
  | tStruct (sname : String) (fields : List GoField) : GoType

/-- One struct field as `reflect.StructField` exposes it to this library:
declared name, the value of `f.Tag.Get("json")`, the `Anonymous`
(embedded) flag and the field's type. -/
inductive GoField : Type where
  | mk (fname ftag : String) (anonymous : Bool) (ftype : GoType) : GoField

end

/-- A dynamically typed source value (an entry of the
`map[string]interface{}` handed to the comparison). -/
inductive SrcVal : Type where
  | vNull : SrcVal
  | vBool (b : Bool) : SrcVal
  | vString (s : String) : SrcVal
  | vInt (n : Int) : SrcVal
  | vFloat (q : Rat) : SrcVal
  | vMapSI (entries : List (String × SrcVal)) : SrcVal
  | vMapSS (entries : List (String × String)) : SrcVal

/-- The source mapping: `map[string]interface{}` (lookups only, so an
association list is a faithful model). -/
abbrev SrcMap := List (String × SrcVal)

/-- schema.go `FieldMismatch`. -/
structure FieldMismatch where
  field : String
  expected : String
  actual : String
  path : List String
deriving DecidableEq, Repr

/-- schema.go `FieldMissing`. -/
structure FieldMissing where
  field : String
  path : List String
deriving DecidableEq, Repr

/-- schema.go `CompareResults`. -/
structure CompareResults where
  mismatchedFields : List FieldMismatch
  missingFields : List FieldMissing
deriving DecidableEq, Repr

/-- `t.Kind() == reflect.Ptr`. -/
def isPtrT : GoType → Bool
  | .tPtr _ => true
  | _ => false

/-- `t.Elem()` for the pointer case (only ever applied to pointers). -/
def elemT : GoType → GoType
  | .tPtr e => e
  | t => t

/-- `t.Kind() == reflect.Struct`. -/
def isStructT : GoType → Bool
  | .tStruct _ _ => true
  | _ => false

/-- `v.Kind() == reflect.Map` of a (non-nil) source value. -/
def isMapKindVal : SrcVal → Bool
  | .vMapSI _ => true
  | .vMapSS _ => true
  | _ => false

/-- The runtime `reflect.Type` of a non-null source value (`v.Type()`).
The `vNull` case is never consulted: the code tests validity first. -/
def valType : SrcVal → GoType
  | .vNull => .tBool
  | .vBool _ => .tBool
  | .vString _ => .tString
  | .vInt _ => .tInt
  | .vFloat _ => .tFloat64
  | .vMapSI _ => .tMapSI
  | .vMapSS _ => .tMapSS

/-- schema.go `isFloatType`. -/
def isFloatType : GoType → Bool
  | .tFloat32 => true
  | .tFloat64 => true
  | _ => false

/-- schema.go `isIntegerType`: (is an integer kind, is unsigned). -/
def isIntegerType : GoType → Bool × Bool
  | .tInt => (true, false)
  | .tInt8 => (true, false)
  | .tInt16 => (true, false)
  | .tInt32 => (true, false)
  | .tInt64 => (true, false)
  | .tUint => (true, true)
  | .tUint8 => (true, true)
  | .tUint16 => (true, true)
  | .tUint32 => (true, true)
  | .tUint64 => (true, true)
  | _ => (false, false)

/-- A numeric kind (integer or float). -/
def isNumericType (t : GoType) : Bool :=
  (isIntegerType t).1 || isFloatType t

/-- `v.Type().ConvertibleTo(d)` for the runtime types `SrcVal` can have,
following Go's conversion rules: any numeric type converts to any
numeric type, integer types additionally convert to `string` (the rune
conversion), identical types convert, and nothing else in this universe
does (in particular `float64` does not convert to `string`, no map type
converts to a struct or to a differently-typed map, and no
non-pointer type converts to a pointer type). -/
def convertibleVal : SrcVal → GoType → Bool
  | .vBool _, .tBool => true
  | .vString _, .tString => true
  | .vInt _, d => isNumericType d || (match d with | .tString => true | _ => false)
  | .vFloat _, d => isNumericType d
  | .vMapSI _, .tMapSI => true
  | .vMapSS _, .tMapSS => true
  | _, _ => false

/-- schema.go `DefaultCanConvert`, the part after the nil-value check,
applied to the (pointer-unwrapped) destination type: the struct/map
check, `ConvertibleTo`, and the integer-destination refinements. -/
def canConvertDst (dstType : GoType) (v : SrcVal) : Bool :=
  if isStructT dstType then isMapKindVal v
  else if !(convertibleVal v dstType) then false
  else
    match isIntegerType dstType with
    | (true, unsigned) =>
      match v with
      | .vFloat q =>
        if q.den ≠ 1 then false
        else if unsigned && q < 0 then false
        else true
      | .vInt n => if unsigned && n < 0 then false else true
      | _ => true
    | (false, _) => true

/-- schema.go `DefaultCanConvert`.  `v.CanAddr()` is always false for a
value obtained from `reflect.ValueOf`, so the nil-value test
`!v.IsValid() || (v.CanAddr() && v.IsNil())` holds exactly for the nil
interface value `vNull`. -/
def DefaultCanConvert (t : GoType) (v : SrcVal) : Bool :=
  match v with
  | .vNull => isPtrT t
  | _ => canConvertDst (if isPtrT t then elemT t else t) v

/-- `t.Name()`: the declared name of a type; unnamed composite types
(pointers, maps) have the empty name. -/
def tname : GoType → String
  | .tBool => "bool"
  | .tString => "string"
  | .tInt => "int"
  | .tInt8 => "int8"
  | .tInt16 => "int16"
  | .tInt32 => "int32"
  | .tInt64 => "int64"
  | .tUint => "uint"
  | .tUint8 => "uint8"
  | .tUint16 => "uint16"
  | .tUint32 => "uint32"
  | .tUint64 => "uint64"
  | .tFloat32 => "float32"
  | .tFloat64 => "float64"
  | .tPtr _ => ""
  | .tMapSI => ""
  | .tMapSS => ""
  | .tStruct n _ => n

/-- lang.go `DetailedTypeName`. -/
def DetailedTypeName (t : GoType) : String :=
  match t with
  | .tPtr e => "*" ++ tname e
  | _ => tname t

/-- lang.go `TypeNameStartsWithVowel`.  `none` is the run-time panic:
for a non-empty name consisting only of `*` markers, `strings.TrimLeft`
yields the empty string and `t[:1]` panics with a slice bound error. -/
def TypeNameStartsWithVowel (t : String) : Option Bool :=
  if t = "" then some false
  else
    match t.toList.dropWhile (fun c => c == '*') with
    | [] => none
    | c :: _ =>
      some (c.toLower == 'a' || c.toLower == 'e' || c.toLower == 'i' || c.toLower == 'o')

/-- lang.go `TypeNameWithArticle` (propagating the possible panic of
`TypeNameStartsWithVowel`). -/
def TypeNameWithArticle (t : String) : Option String :=
  if t = "null" then some t
  else
    match TypeNameStartsWithVowel t with
    | none => none
    | some true => some ("an " ++ t)
    | some false => some ("a " ++ t)

/-- schema.go `CompareOpts`: both hooks are nil-able function fields. -/
structure CompareOpts where
  convertibleFunc : Option (GoType → SrcVal → Bool)
  typeNameFunc : Option (GoType → String)

/-- The options actually used by the traversal, after defaulting. -/
structure ROpts where
  convertibleFunc : GoType → SrcVal → Bool
  typeNameFunc : GoType → String

/-- The option-defaulting of `CompareMapToStruct` (schema.go lines
466-484): a nil options pointer gets both defaults; otherwise the code
copies the caller's struct into a fresh one and replaces each nil hook
of the copy by its default, leaving the caller's struct untouched. -/
def resolveOpts : Option CompareOpts → ROpts
  | none => ⟨DefaultCanConvert, DetailedTypeName⟩
  | some o =>
    ⟨match o.convertibleFunc with
      | none => DefaultCanConvert
      | some f => f,
     match o.typeNameFunc with
      | none => DetailedTypeName
      | some g => g⟩

/-- schema.go `parseField`, on the declared field name and the value of
`f.Tag.Get("json")`. -/
def parseField (fname ftag : String) : String × Bool :=
  if ftag = "" then (fname, false)
  else if ftag = "-" then ("", true)
  else
    let cs := ftag.toList
    let i := cs.indexOf ','
    if i = cs.length then (ftag, false)
    else if i = 0 then (fname, false)
    else (⟨cs.take i⟩, false)

/-- schema.go `isStructType`: a struct or a pointer to a struct. -/
def isStructType (t : GoType) : Bool :=
  match t with
  | .tStruct _ _ => true
  | .tPtr e => isStructT e
  | _ => false

/-- The postprocessing step of schema.go `checkNestedFields`
(lines 614-634): given the result counts captured in `res` before the
nested run and the outcome `r` of that run, prepend `fieldName` to the
path of every entry the run appended. -/
def addFieldToPath (fieldName : String) (res : CompareResults) (r : Option CompareResults) :
    Option CompareResults :=
  match r with
  | none => none
  | some res1 =>
    some ⟨res1.mismatchedFields.take res.mismatchedFields.length ++
            (res1.mismatchedFields.drop res.mismatchedFields.length).map
              (fun m => { m with path := fieldName :: m.path }),
          res1.missingFields.take res.missingFields.length ++
            (res1.missingFields.drop res.missingFields.length).map
              (fun m => { m with path := fieldName :: m.path })⟩

mutual

/-- schema.go `compare` (lines 554-612).  `none` is a run-time panic:
`t.NumField()` panics when `t` is not a struct (reachable through an
embedded field of non-struct type). -/
def compare (t : GoType) (src : SrcMap) (opts : ROpts) (res : CompareResults) :
    Option CompareResults :=
  match t with
  | .tStruct _ fields => compareFields fields src opts res
  | _ => none

/-- The field loop of `compare`, threading the results accumulator. -/
def compareFields (fs : List GoField) (src : SrcMap) (opts : ROpts)
    (res : CompareResults) : Option CompareResults :=
  match fs with
  | [] => some res
  | f :: rest =>
    match compareField f src opts res with
    | none => none
    | some res1 => compareFields rest src opts res1

/-- One iteration of the `compare` loop.  The nested-struct branch is the
source's `checkNestedFields(nestedType, fieldName, nested, opts, results)`
call with the match on `nestedType`'s shape inlined (the equation
`compareField_nested_eq_checkNestedFields` below restores the source's
form); `none` is a run-time panic: besides the panics of the recursive
calls, the type assertion `src[fieldName].(map[string]interface{})`
panics whenever the nested branch is reached and the source value is not
exactly a `map[string]interface{}` (a mapping of another concrete type,
or nil at a pointer-to-struct field the convertibility hook accepted). -/
def compareField (f : GoField) (src : SrcMap) (opts : ROpts)
    (res : CompareResults) : Option CompareResults :=
  match f with
  | .mk fname ftag fanon ftype =>
    let pf := parseField fname ftag
    if pf.2 then some res
    else if fanon then compare ftype src opts res
    else
      match List.lookup pf.1 src with
      | some srcField =>
        if !(opts.convertibleFunc ftype srcField) then
          let srcTypeName :=
            match srcField with
            | .vNull => "null"
            | v => opts.typeNameFunc (valType v)
          some { res with mismatchedFields :=
            res.mismatchedFields ++ [⟨pf.1, opts.typeNameFunc ftype, srcTypeName, []⟩] }
        else
          match ftype with
          | .tStruct _ gs =>
            (match srcField with
             | .vMapSI nested => addFieldToPath pf.1 res (compareFields gs nested opts res)
             | _ => none)
          | .tPtr (.tStruct _ gs) =>
            (match srcField with
             | .vMapSI nested => addFieldToPath pf.1 res (compareFields gs nested opts res)
             | _ => none)
          | _ => some res
      | none =>
        some { res with missingFields := res.missingFields ++ [⟨pf.1, []⟩] }

end

/-- schema.go `checkNestedFields` (lines 614-634): run `compare` on the
nested struct type and mapping, then prepend the current field's
external name to the path of every entry appended by that run. -/
def checkNestedFields (t : GoType) (fieldName : String) (src : SrcMap) (opts : ROpts)
    (res : CompareResults) : Option CompareResults :=
  addFieldToPath fieldName res (compare t src opts res)

/-- The inlined nested branch of `compareField` agrees with the source
shape `checkNestedFields(nestedType, ...)` where `nestedType` is the
field type unwrapped of one pointer level, whenever the field type is a
struct or a pointer to a struct (the only states in which the source
reaches that call). -/
theorem compareField_nested_eq_checkNestedFields (ftype : GoType) (fieldName : String)
    (nested : SrcMap) (opts : ROpts) (res : CompareResults)
    (h : isStructType ftype = true) :
    (match ftype with
      | .tStruct _ gs => addFieldToPath fieldName res (compareFields gs nested opts res)
      | .tPtr (.tStruct _ gs) => addFieldToPath fieldName res (compareFields gs nested opts res)
      | _ => some res) =
    checkNestedFields (if isPtrT ftype then elemT ftype else ftype) fieldName nested opts res := by
  cases ftype with
  | tPtr e =>
    cases e with
    | tStruct sn gs => rfl
    | _ =>
      dsimp only [isStructType, isStructT] at h
      exact Bool.noConfusion h
  | tStruct sn gs => rfl
  | _ =>
    dsimp only [isStructType] at h
    exact Bool.noConfusion h

/-- The `dst interface{}` argument of `CompareMapToStruct`, as far as
the entry checks inspect it. -/
inductive GoDst : Type where
  | nilIface : GoDst
  | nilPtr (t : GoType) : GoDst
  | ptr (t : GoType) : GoDst
  | nonPtr (t : GoType) : GoDst

/-- Outcome of a `CompareMapToStruct` call: a result with nil error,
one of the two precondition errors, or a run-time panic. -/
inductive EntryResult : Type where
  | ok (r : CompareResults) : EntryResult
  | errInvalidDst : EntryResult
  | errNilSrc : EntryResult
  | panic : EntryResult
deriving DecidableEq, Repr

/-- schema.go `CompareMapToStruct` (`src = none` is a nil map). -/
def CompareMapToStruct (dst : GoDst) (src : Option SrcMap) (opts : Option CompareOpts) :
    EntryResult :=
  let ropts := resolveOpts opts
  match dst with
  | .ptr t =>
    if isStructT t then
      match src with
      | none => .errNilSrc
      | some m =>
        match compare t m ropts ⟨[], []⟩ with
        | some r => .ok r
        | none => .panic
    else .errInvalidDst
  | _ => .errInvalidDst

/-- `CompareMapToStruct` together with the caller-visible state of the
options object after the call.  The Go body only rebinds its local
`opts` pointer to a freshly allocated copy (lines 472-476) and never
assigns through the incoming pointer, so the caller's object is
returned unchanged. -/
def CompareMapToStructSt (dst : GoDst) (src : Option SrcMap) (opts : Option CompareOpts) :
    EntryResult × Option CompareOpts :=
  (CompareMapToStruct dst src opts, opts)

/-- A value of the `map[string]interface{}` inside a `MismatchError`:
a message string or a nested mapping. -/
inductive ErrVal : Type where
  | leaf (s : String) : ErrVal
  | node (entries : List (String × ErrVal)) : ErrVal
deriving Repr

/-- Go map assignment `m[k] = v`: replace the binding if the key is
present, otherwise add it. -/
def mapInsert (m : List (String × ErrVal)) (k : String) (v : ErrVal) :
    List (String × ErrVal) :=
  if (List.lookup k m).isSome then
    m.map (fun kv => if kv.1 = k then (k, v) else kv)
  else m ++ [(k, v)]

/-- `FieldMismatch.Message` (`none` when `TypeNameWithArticle` panics). -/
def FieldMismatch.Message (f : FieldMismatch) : Option String :=
  match TypeNameWithArticle f.expected, TypeNameWithArticle f.actual with
  | some a, some b => some ("expected " ++ a ++ " but it's " ++ b)
  | _, _ => none

/-- Return value of `CompareResults.Errors`: the nil error or a
`MismatchError` map. -/
inductive GoErrOrNil : Type where
  | nilErr : GoErrOrNil
  | mismatchErr (m : List (String × ErrVal)) : GoErrOrNil
deriving Repr

/-- schema.go `CompareResults.Errors` (lines 351-363): nil when there
are no mismatches, otherwise the map built by `m[f.Field] = f.Message()`
over the mismatches in order.  Note the loop keys the map by the bare
field name only; `f.Path` is not consulted. -/
def Errors (cr : CompareResults) : Option GoErrOrNil :=
  if cr.mismatchedFields.length = 0 then some .nilErr
  else
    (cr.mismatchedFields.foldlM
      (fun m f => (FieldMismatch.Message f).map (fun s => mapInsert m f.field (.leaf s)))
      []).map .mismatchErr

end MapSchema

namespace MapSchema

section Fixtures

/-- Destination struct with a single `int` field named N. -/
def intDst : GoType := .tStruct "T" [.mk "N" "" false .tInt]

/-- Destination struct with a single `uint` field named N. -/
def uintDst : GoType := .tStruct "T" [.mk "N" "" false .tUint]

/-- Destination struct with a single `string` field named Foo. -/
def strDst : GoType := .tStruct "T" [.mk "Foo" "" false .tString]

/-- Destination struct with a single `*string` field named Foo. -/
def pstrDst : GoType := .tStruct "T" [.mk "Foo" "" false (.tPtr .tString)]

/-- Destination shaped like the nested test struct: {Cat: {A: {Baz: string}}}. -/
def nestedDst : GoType :=
  .tStruct "TestStructNested"
    [.mk "Cat" "" false (.tStruct "CatT"
      [.mk "A" "" false (.tStruct "AT" [.mk "Baz" "" false .tString])])]

/-- Source {"Cat":{"A":{"Baz":true}}}. -/
def nestedSrc : SrcMap := [("Cat", .vMapSI [("A", .vMapSI [("Baz", .vBool true)])])]

end Fixtures

section Sanity

example :
    CompareMapToStruct (.ptr nestedDst) (some nestedSrc) none =
      .ok ⟨[⟨"Baz", "string", "bool", ["Cat", "A"]⟩], []⟩ := by decide

end Sanity

/-- The destination type unwrapped of one pointer level (the local
`dstType` of `DefaultCanConvert`). -/
def unwrapPtr (t : GoType) : GoType := if isPtrT t then elemT t else t

/-- The float value 3/2 (the spec's example source value 1.5). -/
def threeHalves : Rat := ⟨3, 2, by decide, by decide⟩

/-- Core of the float-to-integer rule of `DefaultCanConvert`. -/
theorem canConvertDst_float (d : GoType) (q : Rat) (hd : (isIntegerType d).1 = true) :
    (canConvertDst d (.vFloat q) = true) ↔
      (q.den = 1 ∧ ((isIntegerType d).2 = true → 0 ≤ q)) := by
  cases d <;>
    first
      | (dsimp only [isIntegerType] at hd; exact Bool.noConfusion hd)
      | (dsimp only [canConvertDst, isStructT, convertibleVal, isNumericType, isIntegerType,
           isFloatType, isMapKindVal]
         by_cases hq : q.den = 1
         · rcases lt_or_le q 0 with h0 | h0
           · simp [hq, h0, not_le.mpr h0]
           · simp [hq, h0, not_lt.mpr h0]
         · simp [hq])

/-- Core of the integer-to-unsigned rule of `DefaultCanConvert`. -/
theorem canConvertDst_int (d : GoType) (n : Int) (hd1 : (isIntegerType d).1 = true)
    (hd2 : (isIntegerType d).2 = true) :
    (canConvertDst d (.vInt n) = true) ↔ 0 ≤ n := by
  cases d <;>
    first
      | (dsimp only [isIntegerType] at hd1; exact Bool.noConfusion hd1)
      | (dsimp only [isIntegerType] at hd2; exact Bool.noConfusion hd2)
      | (dsimp only [canConvertDst, isStructT, convertibleVal, isNumericType, isIntegerType,
           isFloatType, isMapKindVal]
         rcases lt_or_le n 0 with h0 | h0
         · simp [h0, not_le.mpr h0]
         · simp [h0, not_lt.mpr h0])

/-- C3: for an integer-typed destination (after unwrapping one pointer
level), `DefaultCanConvert` accepts a float value iff it has no
fractional part and, for an unsigned destination, is non-negative; an
integer value is accepted by an unsigned destination iff non-negative;
and the spec's concrete cases: declared int with source 1.5 mismatches
while 2.0 does not, declared uint with source -1 mismatches while 0 and
1 do not. -/
theorem defaultCanConvert_integer_rules :
    (∀ (t : GoType) (q : Rat), (isIntegerType (unwrapPtr t)).1 = true →
        (DefaultCanConvert t (.vFloat q) = true ↔
          (q.den = 1 ∧ ((isIntegerType (unwrapPtr t)).2 = true → 0 ≤ q)))) ∧
    (∀ (t : GoType) (n : Int), (isIntegerType (unwrapPtr t)).1 = true →
        (isIntegerType (unwrapPtr t)).2 = true →
        (DefaultCanConvert t (.vInt n) = true ↔ 0 ≤ n)) ∧
    CompareMapToStruct (.ptr intDst) (some [("N", .vFloat threeHalves)]) none =
      .ok ⟨[⟨"N", "int", "float64", []⟩], []⟩ ∧
    CompareMapToStruct (.ptr intDst) (some [("N", .vFloat 2)]) none = .ok ⟨[], []⟩ ∧
    CompareMapToStruct (.ptr uintDst) (some [("N", .vInt (-1))]) none =
      .ok ⟨[⟨"N", "uint", "int", []⟩], []⟩ ∧
    CompareMapToStruct (.ptr uintDst) (some [("N", .vInt 0)]) none = .ok ⟨[], []⟩ ∧
    CompareMapToStruct (.ptr uintDst) (some [("N", .vInt 1)]) none = .ok ⟨[], []⟩ := by
  refine ⟨?_, ?_, by decide, by decide, by decide, by decide, by decide⟩
  · intro t q h
    exact canConvertDst_float (unwrapPtr t) q h
  · intro t n h1 h2
    exact canConvertDst_int (unwrapPtr t) n h1 h2

/-- Witness for the hypotheses of `defaultCanConvert_integer_rules`. -/
theorem defaultCanConvert_integer_rules_witness :
    ((isIntegerType (unwrapPtr .tUint)).1 = true ∧ (isIntegerType (unwrapPtr .tUint)).2 = true) ∧
    (DefaultCanConvert .tUint (.vInt (-1)) = true ↔ 0 ≤ (-1 : Int)) :=
  ⟨⟨by decide, by decide⟩,
   defaultCanConvert_integer_rules.2.1 .tUint (-1) (by decide) (by decide)⟩

/-- C4: a null source value is accepted exactly by pointer destination
types; a non-pointer string field with null source yields a mismatch
whose actual type name is "null", a `*string` field with null source
yields no entry; and for a pointer destination a non-null value is
decided against the pointed-to element type. -/
theorem defaultCanConvert_null_pointer_rules :
    (∀ t : GoType, DefaultCanConvert t .vNull = isPtrT t) ∧
    CompareMapToStruct (.ptr strDst) (some [("Foo", .vNull)]) none =
      .ok ⟨[⟨"Foo", "string", "null", []⟩], []⟩ ∧
    CompareMapToStruct (.ptr pstrDst) (some [("Foo", .vNull)]) none = .ok ⟨[], []⟩ ∧
    (∀ (e : GoType) (v : SrcVal), v ≠ .vNull →
        DefaultCanConvert (.tPtr e) v = canConvertDst e v) := by
  refine ⟨fun t => rfl, by decide, by decide, ?_⟩
  intro e v hv
  cases v with
  | vNull => exact absurd rfl hv
  | _ => rfl

/-- Witness for the hypothesis of `defaultCanConvert_null_pointer_rules`. -/
theorem defaultCanConvert_null_pointer_rules_witness :
    (SrcVal.vString "x" ≠ SrcVal.vNull) ∧
    DefaultCanConvert (.tPtr .tString) (.vString "x") = canConvertDst .tString (.vString "x") :=
  ⟨fun h => SrcVal.noConfusion h,
   defaultCanConvert_null_pointer_rules.2.2.2 .tString (.vString "x")
     (fun h => SrcVal.noConfusion h)⟩

/-- C8: the caller's options object is returned unchanged by a call, and
defaulting happens on the internal copy: an unset hook defaults
(`DefaultCanConvert` / `DetailedTypeName`) while a supplied hook is kept. -/
theorem compareOpts_defaulting_no_mutation :
    (∀ (dst : GoDst) (src : Option SrcMap) (opts : Option CompareOpts),
        (CompareMapToStructSt dst src opts).2 = opts) ∧
    (∀ (f : GoType → SrcVal → Bool) (g : GoType → String),
        resolveOpts (some ⟨some f, some g⟩) = ⟨f, g⟩) ∧
    (∀ g : GoType → String, resolveOpts (some ⟨none, some g⟩) = ⟨DefaultCanConvert, g⟩) ∧
    (∀ f : GoType → SrcVal → Bool, resolveOpts (some ⟨some f, none⟩) = ⟨f, DetailedTypeName⟩) ∧
    resolveOpts (some ⟨none, none⟩) = ⟨DefaultCanConvert, DetailedTypeName⟩ ∧
    resolveOpts none = ⟨DefaultCanConvert, DetailedTypeName⟩ :=
  ⟨fun _ _ _ => rfl, fun _ _ => rfl, fun _ => rfl, fun _ => rfl, rfl, rfl⟩

/-- The article-selection rule exactly as the specification words it:
strip the leading pointer markers, then test the first remaining letter
case-insensitively; the empty remainder counts as no vowel. -/
def specStartsWithVowel (t : String) : Bool :=
  match t.toList.dropWhile (fun c => c == '*') with
  | [] => false
  | c :: _ => c.toLower == 'a' || c.toLower == 'e' || c.toLower == 'i' || c.toLower == 'o'

/-- The full article rule as the specification words it: the literal
name "null" is returned unchanged, vowels get "an ", the rest "a ". -/
def specTypeNameWithArticle (t : String) : String :=
  if t = "null" then t
  else if specStartsWithVowel t then "an " ++ t else "a " ++ t

/-- C9 counterexample: on the input "*" (only pointer markers) the code
panics (`t[:1]` on the empty trimmed string) instead of producing the
article the claim promises for every string. -/
theorem typeNameWithArticle_star_panics :
    TypeNameWithArticle "*" = none ∧ specTypeNameWithArticle "*" = "a *" :=
  ⟨by decide, by decide⟩

/-- C9 amended: on every string that is empty, or is "null", or keeps at
least one character after stripping the leading `*` markers, both
article helpers return (rather than panic) exactly the value the
specification describes. -/
theorem typeNameWithArticle_spec (t : String)
    (h : t = "" ∨ t = "null" ∨ t.toList.dropWhile (fun c => c == '*') ≠ []) :
    TypeNameStartsWithVowel t = some (specStartsWithVowel t) ∧
    TypeNameWithArticle t = some (specTypeNameWithArticle t) := by
  have hv : TypeNameStartsWithVowel t = some (specStartsWithVowel t) := by
    by_cases h0 : t = ""
    · subst h0; decide
    · rcases h with h | h | h
      · exact absurd h h0
      · subst h; decide
      · rw [TypeNameStartsWithVowel, if_neg h0]
        rcases hd : t.toList.dropWhile (fun c => c == '*') with _ | ⟨c, cs⟩
        · exact absurd hd h
        · rw [specStartsWithVowel, hd]
  refine ⟨hv, ?_⟩
  by_cases hn : t = "null"
  · subst hn; decide
  · rw [TypeNameWithArticle, if_neg hn, hv, specTypeNameWithArticle, if_neg hn]
    cases specStartsWithVowel t <;> rfl

/-- Witness for the hypothesis of `typeNameWithArticle_spec`. -/
theorem typeNameWithArticle_spec_witness :
    ("*int" = "" ∨ "*int" = "null" ∨ "*int".toList.dropWhile (fun c => c == '*') ≠ []) ∧
    (TypeNameStartsWithVowel "*int" = some (specStartsWithVowel "*int") ∧
     TypeNameWithArticle "*int" = some (specTypeNameWithArticle "*int")) :=
  ⟨by decide, typeNameWithArticle_spec "*int" (by decide)⟩

/-- Destination with two embedded structs that both declare a field X. -/
def dupDst : GoType :=
  .tStruct "T"
    [.mk "E1" "" true (.tStruct "A" [.mk "X" "" false .tString]),
     .mk "E2" "" true (.tStruct "B" [.mk "X" "" false .tInt])]

/-- C10: result entries are not deduplicated by external name: with two
embedded structs each declaring X, one call yields two missing entries
named X on an empty source, and two mismatch entries named X when X is
present with an unconvertible value. -/
theorem duplicate_external_names_kept :
    CompareMapToStruct (.ptr dupDst) (some []) none =
      .ok ⟨[], [⟨"X", []⟩, ⟨"X", []⟩]⟩ ∧
    CompareMapToStruct (.ptr dupDst) (some [("X", .vBool true)]) none =
      .ok ⟨[⟨"X", "string", "bool", []⟩, ⟨"X", "int", "bool", []⟩], []⟩ :=
  ⟨by decide, by decide⟩

/-- C2 (code versus its own test): at the nested mismatch input the
comparison yields the single path-qualified mismatch, but `Errors` keys
the map by the bare field name only, producing the flat mapping
{"Baz": message} instead of the nested {"Cat":{"A":{"Baz": message}}}
tree the claim (and the repository's own test) describes; the nil-iff-
no-mismatches half of the claim does hold. -/
theorem errors_view_flat_not_nested :
    CompareMapToStruct (.ptr nestedDst) (some nestedSrc) none =
      .ok ⟨[⟨"Baz", "string", "bool", ["Cat", "A"]⟩], []⟩ ∧
    Errors ⟨[⟨"Baz", "string", "bool", ["Cat", "A"]⟩], []⟩ =
      some (.mismatchErr [("Baz", .leaf "expected a string but it's a bool")]) ∧
    (∀ ms : List FieldMissing, Errors ⟨[], ms⟩ = some .nilErr) :=
  ⟨by decide, by rfl, fun ms => rfl⟩




/-- Index of the first comma in a comma-free list extended by a comma. -/
theorem indexOf_comma_append (pre post : List Char) (h : pre.contains ',' = false) :
    (pre ++ ',' :: post).indexOf ',' = pre.length := by
  induction pre with
  | nil => simp [List.indexOf_cons]
  | cons a l ih =>
    simp only [List.contains_cons, Bool.or_eq_false_iff] at h
    have ha : (a == ',') = false := by
      simp only [beq_eq_false_iff_ne] at h ⊢
      exact fun he => h.1 he.symm
    simp [List.indexOf_cons, ha, ih h.2]

/-- `indexOf` returns the length when the element is absent. -/
theorem indexOf_comma_eq_length (cs : List Char) (h : cs.contains ',' = false) :
    cs.indexOf ',' = cs.length := by
  induction cs with
  | nil => rfl
  | cons a l ih =>
    simp only [List.contains_cons, Bool.or_eq_false_iff] at h
    have ha : (a == ',') = false := by
      simp only [beq_eq_false_iff_ne] at h ⊢
      exact fun he => h.1 he.symm
    simp [List.indexOf_cons, ha, ih h.2]

/-- `parseField` on a tag with a comma: the portion before the first
comma, or the declared name when that portion is empty. -/
theorem parseField_comma (fname : String) (pre post : List Char)
    (h : pre.contains ',' = false) :
    parseField fname ⟨pre ++ ',' :: post⟩ = (if pre = [] then fname else ⟨pre⟩, false) := by
  have hne : (⟨pre ++ ',' :: post⟩ : String) ≠ "" := by
    intro he
    have hd : pre ++ ',' :: post = [] := congrArg String.data he
    simp at hd
  have hnd : (⟨pre ++ ',' :: post⟩ : String) ≠ "-" := by
    intro he
    have hd : pre ++ ',' :: post = ['-'] := congrArg String.data he
    have hm : ',' ∈ pre ++ ',' :: post := List.mem_append.mpr (Or.inr (List.mem_cons_self _ _))
    rw [hd] at hm
    simp at hm
  have hlist : (⟨pre ++ ',' :: post⟩ : String).toList = pre ++ ',' :: post := rfl
  simp only [parseField, if_neg hne, if_neg hnd, hlist, indexOf_comma_append pre post h]
  have hlen : pre.length ≠ (pre ++ ',' :: post).length := by
    simp only [List.length_append, List.length_cons]
    omega
  rw [if_neg hlen]
  by_cases hp : pre = []
  · subst hp
    simp
  · have hl0 : pre.length ≠ 0 := fun hh => hp (List.length_eq_zero.mp hh)
    rw [if_neg hl0, if_neg hp]
    rw [List.take_left pre (',' :: post)]

/-- `parseField` on a non-empty, non-sentinel, comma-free tag: verbatim. -/
theorem parseField_verbatim (fname ftag : String) (h1 : ftag ≠ "") (h2 : ftag ≠ "-")
    (h3 : ftag.toList.contains ',' = false) :
    parseField fname ftag = (ftag, false) := by
  simp only [parseField, if_neg h1, if_neg h2, indexOf_comma_eq_length _ h3]
  simp

/-- C6: external-name resolution.  A field tagged exactly "-" is skipped
(it changes neither result list, for every source content); an empty tag
uses the declared name; a tag with a comma uses the comma-free portion
before the first comma unless that portion is empty (then the declared
name); the tag "-," therefore resolves to the external name "-" and is
not skipped; any other tag is used verbatim. -/
theorem field_tag_resolution :
    (∀ (fname : String) (fanon : Bool) (ftype : GoType) (src : SrcMap) (opts : ROpts)
        (res : CompareResults),
        compareField (.mk fname "-" fanon ftype) src opts res = some res) ∧
    (∀ fname : String, parseField fname "" = (fname, false)) ∧
    (∀ (fname : String) (pre post : List Char), pre.contains ',' = false →
        parseField fname ⟨pre ++ ',' :: post⟩ = (if pre = [] then fname else ⟨pre⟩, false)) ∧
    parseField "Foo" "-," = ("-", false) ∧
    (∀ fname ftag : String, ftag ≠ "" → ftag ≠ "-" → ftag.toList.contains ',' = false →
        parseField fname ftag = (ftag, false)) := by
  refine ⟨?_, fun fname => rfl, fun fname pre post h => parseField_comma fname pre post h,
    by decide, fun fname ftag h1 h2 h3 => parseField_verbatim fname ftag h1 h2 h3⟩
  intro fname fanon ftype src opts res
  rfl

/-- Witness for the hypotheses of `field_tag_resolution`. -/
theorem field_tag_resolution_witness :
    ((['n', 'a', 'm', 'e'] : List Char).contains ',' = false) ∧
    parseField "Foo" ⟨['n', 'a', 'm', 'e'] ++ ',' :: ['x']⟩ =
      (if (['n', 'a', 'm', 'e'] : List Char) = [] then "Foo" else ⟨['n', 'a', 'm', 'e']⟩,
       false) :=
  ⟨by decide, field_tag_resolution.2.2.1 "Foo" ['n', 'a', 'm', 'e'] ['x'] (by decide)⟩

/-- Follow a path of field names down through nested
`map[string]interface{}` values of a source mapping. -/
def resolvePath : SrcMap → List String → Option SrcMap
  | m, [] => some m
  | m, s :: rest =>
    match List.lookup s m with
    | some (.vMapSI m1) => resolvePath m1 rest
    | _ => none

/-- The source mapping reached by `p` contains key `f`. -/
def entryLive (src : SrcMap) (f : String) (p : List String) : Prop :=
  ∃ m1, resolvePath src p = some m1 ∧ (List.lookup f m1).isSome = true

/-- The source mapping reached by `p` lacks key `f`. -/
def entryDead (src : SrcMap) (f : String) (p : List String) : Prop :=
  ∃ m1, resolvePath src p = some m1 ∧ List.lookup f m1 = none

/-- `res1` extends `res` by appended entries, every appended mismatch
naming a present key and every appended missing entry an absent key of
the source mapping reached by the entry's path. -/
def extOk (src : SrcMap) (res res1 : CompareResults) : Prop :=
  (∃ nm, res1.mismatchedFields = res.mismatchedFields ++ nm ∧
      ∀ e ∈ nm, entryLive src e.field e.path) ∧
  (∃ ns, res1.missingFields = res.missingFields ++ ns ∧
      ∀ e ∈ ns, entryDead src e.field e.path)

theorem extOk_refl (src : SrcMap) (res : CompareResults) : extOk src res res :=
  ⟨⟨[], by simp, by simp⟩, ⟨[], by simp, by simp⟩⟩

theorem extOk_trans {src : SrcMap} {a b c : CompareResults}
    (h1 : extOk src a b) (h2 : extOk src b c) : extOk src a c := by
  obtain ⟨⟨nm1, e1, p1⟩, ⟨ns1, f1, q1⟩⟩ := h1
  obtain ⟨⟨nm2, e2, p2⟩, ⟨ns2, f2, q2⟩⟩ := h2
  refine ⟨⟨nm1 ++ nm2, ?_, ?_⟩, ⟨ns1 ++ ns2, ?_, ?_⟩⟩
  · rw [e2, e1, List.append_assoc]
  · intro e he
    rcases List.mem_append.mp he with he | he
    · exact p1 e he
    · exact p2 e he
  · rw [f2, f1, List.append_assoc]
  · intro e he
    rcases List.mem_append.mp he with he | he
    · exact q1 e he
    · exact q2 e he

/-- `addFieldToPath` on a result that extends the captured one: keep the
old entries, prefix the new ones. -/
theorem addFieldToPath_of_extension (name : String) (res res2 : CompareResults)
    (nm : List FieldMismatch) (ns : List FieldMissing)
    (hmm : res2.mismatchedFields = res.mismatchedFields ++ nm)
    (hms : res2.missingFields = res.missingFields ++ ns) :
    addFieldToPath name res (some res2) =
      some ⟨res.mismatchedFields ++ nm.map (fun e => { e with path := name :: e.path }),
            res.missingFields ++ ns.map (fun e => { e with path := name :: e.path })⟩ := by
  simp [addFieldToPath, hmm, hms, List.take_left, List.drop_left]

/-- Every successful run of the comparison only appends entries, and
each appended mismatch (resp. missing) entry points at a present
(resp. absent) key of the source mapping reached by its path. -/
theorem compare_extOk :
    ∀ (t : GoType) (src : SrcMap) (opts : ROpts) (res : CompareResults),
      ∀ res1, compare t src opts res = some res1 → extOk src res res1 := by
  refine compare.induct
    (fun t src opts res => ∀ res1, compare t src opts res = some res1 → extOk src res res1)
    (fun fs src opts res => ∀ res1, compareFields fs src opts res = some res1 → extOk src res res1)
    (fun f src opts res => ∀ res1, compareField f src opts res = some res1 → extOk src res res1)
    ?_ ?_ ?_ ?_ ?_ ?_ ?_ ?_ ?_ ?_ ?_ ?_ ?_ ?_
  · -- compare on a struct delegates to the field loop
    intro src opts res sname fields ih res1 h
    exact ih res1 h
  · -- compare on a non-struct panics
    intro t src opts res hne res1 h
    exfalso
    cases t with
    | tStruct sn fs => exact hne sn fs rfl
    | _ => exact Option.noConfusion h
  · -- skipped field
    intro src opts res fname ftag fanon ftype pf hskip res1 h
    rw [compareField, if_pos hskip] at h
    cases h
    exact extOk_refl _ _
  · -- embedded field
    intro src opts res fname ftag ftype pf hskip ih res1 h
    rw [compareField, if_neg hskip, if_pos rfl] at h
    exact ih res1 h
  · -- mismatched field
    intro src opts res fname ftag fanon ftype pf hskip hanon srcField hlook hconv res1 h
    rw [compareField, if_neg hskip, if_neg hanon, hlook] at h
    dsimp only at h
    rw [if_pos hconv] at h
    cases h
    refine ⟨⟨[⟨pf.1, opts.typeNameFunc ftype, _, []⟩], rfl, ?_⟩, ⟨[], by simp, by simp⟩⟩
    intro e he
    rw [List.mem_singleton] at he
    subst he
    exact ⟨src, rfl, by rw [hlook]; rfl⟩
  · -- nested struct field, source value is a map[string]interface{}
    intro src opts res fname ftag fanon pf hskip hanon sname gs nested hlook hconv ih res1 h
    rw [compareField, if_neg hskip, if_neg hanon, hlook] at h
    dsimp only at h
    rw [if_neg hconv] at h
    try dsimp only at h
    rcases hc : compareFields gs nested opts res with _ | res2
    · rw [hc] at h
      exact Option.noConfusion h
    · rw [hc] at h
      obtain ⟨⟨nm, hmm, hpm⟩, ⟨ns, hms, hps⟩⟩ := ih res2 hc
      rw [addFieldToPath_of_extension pf.1 res res2 nm ns hmm hms] at h
      cases h
      refine ⟨⟨nm.map (fun e => { e with path := pf.1 :: e.path }), rfl, ?_⟩,
              ⟨ns.map (fun e => { e with path := pf.1 :: e.path }), rfl, ?_⟩⟩
      · intro e he
        obtain ⟨e0, he0, rfl⟩ := List.mem_map.mp he
        obtain ⟨m1, hm1, hl1⟩ := hpm e0 he0
        exact ⟨m1, by rw [resolvePath, hlook]; exact hm1, hl1⟩
      · intro e he
        obtain ⟨e0, he0, rfl⟩ := List.mem_map.mp he
        obtain ⟨m1, hm1, hl1⟩ := hps e0 he0
        exact ⟨m1, by rw [resolvePath, hlook]; exact hm1, hl1⟩
  · -- struct field, source value of another shape: type assertion panic
    intro src opts res fname ftag fanon pf hskip hanon srcField hlook sname gs hnotmap hconv res1 h
    exfalso
    rw [compareField, if_neg hskip, if_neg hanon, hlook] at h
    dsimp only at h
    rw [if_neg hconv] at h
    try dsimp only at h
    cases srcField with
    | vMapSI m => exact hnotmap m rfl
    | _ => exact Option.noConfusion h
  · -- nested pointer-to-struct field, source value is a map[string]interface{}
    intro src opts res fname ftag fanon pf hskip hanon sname gs nested hlook hconv ih res1 h
    rw [compareField, if_neg hskip, if_neg hanon, hlook] at h
    dsimp only at h
    rw [if_neg hconv] at h
    try dsimp only at h
    rcases hc : compareFields gs nested opts res with _ | res2
    · rw [hc] at h
      exact Option.noConfusion h
    · rw [hc] at h
      obtain ⟨⟨nm, hmm, hpm⟩, ⟨ns, hms, hps⟩⟩ := ih res2 hc
      rw [addFieldToPath_of_extension pf.1 res res2 nm ns hmm hms] at h
      cases h
      refine ⟨⟨nm.map (fun e => { e with path := pf.1 :: e.path }), rfl, ?_⟩,
              ⟨ns.map (fun e => { e with path := pf.1 :: e.path }), rfl, ?_⟩⟩
      · intro e he
        obtain ⟨e0, he0, rfl⟩ := List.mem_map.mp he
        obtain ⟨m1, hm1, hl1⟩ := hpm e0 he0
        exact ⟨m1, by rw [resolvePath, hlook]; exact hm1, hl1⟩
      · intro e he
        obtain ⟨e0, he0, rfl⟩ := List.mem_map.mp he
        obtain ⟨m1, hm1, hl1⟩ := hps e0 he0
        exact ⟨m1, by rw [resolvePath, hlook]; exact hm1, hl1⟩
  · -- pointer-to-struct field, source value of another shape: panic
    intro src opts res fname ftag fanon pf hskip hanon srcField hlook sname gs hnotmap hconv res1 h
    exfalso
    rw [compareField, if_neg hskip, if_neg hanon, hlook] at h
    dsimp only at h
    rw [if_neg hconv] at h
    try dsimp only at h
    cases srcField with
    | vMapSI m => exact hnotmap m rfl
    | _ => exact Option.noConfusion h
  · -- convertible field of non-record shape: no entry
    intro src opts res fname ftag fanon ftype pf hskip hanon srcField hlook hconv hns hnp res1 h
    rw [compareField, if_neg hskip, if_neg hanon, hlook] at h
    dsimp only at h
    rw [if_neg hconv] at h
    try dsimp only at h
    have hsome : some res = some res1 := by
      cases ftype with
      | tStruct sn gs => exact absurd rfl (hns sn gs)
      | tPtr e =>
        cases e with
        | tStruct sn gs => exact absurd rfl (hnp sn gs)
        | _ => exact h
      | _ => exact h
    cases hsome
    exact extOk_refl _ _
  · -- missing field
    intro src opts res fname ftag fanon ftype pf hskip hanon hlook res1 h
    rw [compareField, if_neg hskip, if_neg hanon, hlook] at h
    dsimp only at h
    cases h
    refine ⟨⟨[], by simp, by simp⟩, ⟨[⟨pf.1, []⟩], rfl, ?_⟩⟩
    intro e he
    rw [List.mem_singleton] at he
    subst he
    exact ⟨src, rfl, hlook⟩
  · -- empty field list
    intro src opts res res1 h
    rw [compareFields] at h
    cases h
    exact extOk_refl _ _
  · -- field loop, head panics
    intro src opts res f rest hnone ih res1 h
    rw [compareFields, hnone] at h
    exact Option.noConfusion h
  · -- field loop, head succeeds
    intro src opts res f rest res2 hsome ihf ihrest res1 h
    rw [compareFields, hsome] at h
    exact extOk_trans (ihf res2 hsome) (ihrest res1 h)

/-- C7: in a successful comparison no field identity (external name
together with full ancestor path) occurs both as a mismatch and as a
missing entry: the mapping reached by the path is unique, and a mismatch
needs its key present there while a missing entry needs it absent. -/
theorem mismatch_missing_disjoint :
    ∀ (dst : GoDst) (src : SrcMap) (opts : Option CompareOpts) (r : CompareResults)
      (f : String) (p : List String),
      CompareMapToStruct dst (some src) opts = .ok r →
      (∃ e ∈ r.mismatchedFields, e.field = f ∧ e.path = p) →
      ¬ ∃ e ∈ r.missingFields, e.field = f ∧ e.path = p := by
  intro dst src opts r f p hok hmm hms
  cases dst with
  | ptr t =>
    rw [CompareMapToStruct] at hok
    by_cases hs : isStructT t = true
    · rw [if_pos hs] at hok
      rcases hc : compare t src (resolveOpts opts) ⟨[], []⟩ with _ | r0 <;> rw [hc] at hok
      · exact EntryResult.noConfusion hok
      · cases hok
        obtain ⟨⟨nm, hnm, hpm⟩, ⟨ns, hns, hps⟩⟩ :=
          compare_extOk t src (resolveOpts opts) ⟨[], []⟩ r hc
        obtain ⟨e1, he1, hf1, hp1⟩ := hmm
        obtain ⟨e2, he2, hf2, hp2⟩ := hms
        have h0m : r.mismatchedFields = nm := by simpa using hnm
        have h0s : r.missingFields = ns := by simpa using hns
        obtain ⟨m1, hr1, hs1⟩ := hpm e1 (by rw [← h0m]; exact he1)
        obtain ⟨m2, hr2, hs2⟩ := hps e2 (by rw [← h0s]; exact he2)
        rw [hp1] at hr1
        rw [hf1] at hs1
        rw [hp2] at hr2
        rw [hf2] at hs2
        rw [hr1] at hr2
        cases hr2
        rw [hs2] at hs1
        exact Bool.noConfusion hs1
    · rw [if_neg hs] at hok
      exact EntryResult.noConfusion hok
  | nilIface => exact EntryResult.noConfusion hok
  | nilPtr t => exact EntryResult.noConfusion hok
  | nonPtr t => exact EntryResult.noConfusion hok

/-- Witness for the hypotheses of `mismatch_missing_disjoint`. -/
theorem mismatch_missing_disjoint_witness :
    (CompareMapToStruct (.ptr strDst) (some [("Foo", .vNull)]) none =
        .ok ⟨[⟨"Foo", "string", "null", []⟩], []⟩ ∧
      ∃ e ∈ [(⟨"Foo", "string", "null", []⟩ : FieldMismatch)],
        e.field = "Foo" ∧ e.path = ([] : List String)) ∧
    ¬ ∃ e ∈ ([] : List FieldMissing), e.field = "Foo" ∧ e.path = ([] : List String) :=
  ⟨⟨by decide, by decide⟩,
   mismatch_missing_disjoint (.ptr strDst) [("Foo", .vNull)] none
     ⟨[⟨"Foo", "string", "null", []⟩], []⟩ "Foo" [] (by decide) (by decide)⟩

/-- C5: `checkNestedFields` keeps the entries present before the nested
run and prepends the current field's external name to the path of every
entry that run appended (so paths accumulate outer-to-inner); and the
spec's concrete case: destination {Cat:{A:{Baz:string}}} with source
{"Cat":{"A":{"Baz":true}}} yields the single mismatch on field "Baz"
with path ["Cat","A"]. -/
theorem nested_path_prepending :
    (∀ (t : GoType) (name : String) (src : SrcMap) (opts : ROpts) (res res1 : CompareResults),
        checkNestedFields t name src opts res = some res1 →
        ∃ nm ns,
          compare t src opts res = some ⟨res.mismatchedFields ++ nm, res.missingFields ++ ns⟩ ∧
          res1 = ⟨res.mismatchedFields ++ nm.map (fun e => { e with path := name :: e.path }),
                  res.missingFields ++ ns.map (fun e => { e with path := name :: e.path })⟩) ∧
    CompareMapToStruct (.ptr nestedDst) (some nestedSrc) none =
      .ok ⟨[⟨"Baz", "string", "bool", ["Cat", "A"]⟩], []⟩ := by
  constructor
  · intro t name src opts res res1 h
    rw [checkNestedFields] at h
    rcases hc : compare t src opts res with _ | res2 <;> rw [hc] at h
    · exact Option.noConfusion h
    · obtain ⟨⟨nm, hmm, _⟩, ⟨ns, hms, _⟩⟩ := compare_extOk t src opts res res2 hc
      obtain ⟨a, b⟩ := res2
      simp only at hmm hms
      subst hmm
      subst hms
      rw [addFieldToPath_of_extension name res ⟨_, _⟩ nm ns rfl rfl] at h
      exact ⟨nm, ns, rfl, (Option.some.inj h).symm⟩
  · decide

/-- Inner struct type {A: {Baz: string}} of the nested fixture. -/
def catT : GoType :=
  .tStruct "CatT" [.mk "A" "" false (.tStruct "AT" [.mk "Baz" "" false .tString])]

/-- Witness for the hypothesis of `nested_path_prepending`. -/
theorem nested_path_prepending_witness :
    (checkNestedFields catT "Cat" [("A", .vMapSI [("Baz", .vBool true)])] (resolveOpts none)
        ⟨[], []⟩ = some ⟨[⟨"Baz", "string", "bool", ["Cat", "A"]⟩], []⟩) ∧
    ∃ nm ns,
      compare catT [("A", .vMapSI [("Baz", .vBool true)])] (resolveOpts none) ⟨[], []⟩ =
        some ⟨[] ++ nm, [] ++ ns⟩ ∧
      (⟨[⟨"Baz", "string", "bool", ["Cat", "A"]⟩], []⟩ : CompareResults) =
        ⟨[] ++ nm.map (fun e => { e with path := "Cat" :: e.path }),
         [] ++ ns.map (fun e => { e with path := "Cat" :: e.path })⟩ :=
  ⟨by decide,
   nested_path_prepending.1 catT "Cat" [("A", .vMapSI [("Baz", .vBool true)])] (resolveOpts none)
     ⟨[], []⟩ ⟨[⟨"Baz", "string", "bool", ["Cat", "A"]⟩], []⟩ (by decide)⟩

mutual

/-- The inputs on which the traversal cannot hit a panic: every
non-skipped embedded field has a struct type, and every non-skipped
struct-or-pointer-to-struct field whose present source value the
convertibility hook accepts carries a `map[string]interface{}` value
whose nested content is in turn safe. -/
def safeFields (opts : ROpts) (fs : List GoField) (src : SrcMap) : Bool :=
  match fs with
  | [] => true
  | f :: rest => safeField opts f src && safeFields opts rest src

/-- Safety of a single field (see `safeFields`). -/
def safeField (opts : ROpts) (f : GoField) (src : SrcMap) : Bool :=
  match f with
  | .mk fname ftag fanon ftype =>
    let pf := parseField fname ftag
    if pf.2 then true
    else if fanon then
      match ftype with
      | .tStruct _ gs => safeFields opts gs src
      | _ => false
    else
      match List.lookup pf.1 src with
      | none => true
      | some v =>
        if opts.convertibleFunc ftype v then
          match ftype with
          | .tStruct _ gs =>
            (match v with
             | .vMapSI nested => safeFields opts gs nested
             | _ => false)
          | .tPtr (.tStruct _ gs) =>
            (match v with
             | .vMapSI nested => safeFields opts gs nested
             | _ => false)
          | _ => true
        else true

end

/-- On safe inputs the field loop cannot panic. -/
theorem compare_total_of_safe :
    ∀ (t : GoType) (src : SrcMap) (opts : ROpts) (res : CompareResults),
      ∀ (sname : String) (gs : List GoField), t = .tStruct sname gs →
        safeFields opts gs src = true → (compare t src opts res).isSome = true := by
  refine compare.induct
    (fun t src opts res => ∀ (sname : String) (gs : List GoField), t = .tStruct sname gs →
      safeFields opts gs src = true → (compare t src opts res).isSome = true)
    (fun fs src opts res => safeFields opts fs src = true →
      (compareFields fs src opts res).isSome = true)
    (fun f src opts res => safeField opts f src = true →
      (compareField f src opts res).isSome = true)
    ?_ ?_ ?_ ?_ ?_ ?_ ?_ ?_ ?_ ?_ ?_ ?_ ?_ ?_
  · -- struct case delegates to the loop
    intro src opts res sname fields ih sname2 gs2 heq hsafe
    cases heq
    exact ih hsafe
  · -- the non-struct case is ruled out by the equation hypothesis
    intro t src opts res hne sname gs heq hsafe
    exact absurd heq (fun he => hne sname gs he)
  · -- skipped field
    intro src opts res fname ftag fanon ftype pf hskip hsafe
    rw [compareField, if_pos hskip]
    rfl
  · -- embedded field: safety forces a struct type
    intro src opts res fname ftag ftype pf hskip ih hsafe
    rw [safeField.eq_def] at hsafe
    dsimp only at hsafe
    rw [if_neg hskip, if_pos rfl] at hsafe
    rw [compareField, if_neg hskip, if_pos rfl]
    cases ftype with
    | tStruct sn gs => exact ih sn gs rfl hsafe
    | _ => exact Bool.noConfusion hsafe
  · -- mismatched field: an entry is appended, no panic
    intro src opts res fname ftag fanon ftype pf hskip hanon srcField hlook hconv hsafe
    rw [compareField, if_neg hskip, if_neg hanon, hlook]
    dsimp only
    rw [if_pos hconv]
    rfl
  · -- nested struct field with a map[string]interface{} value
    intro src opts res fname ftag fanon pf hskip hanon sname gs nested hlook hconv ih hsafe
    have hcv : opts.convertibleFunc (GoType.tStruct sname gs) (SrcVal.vMapSI nested) = true := by
      rcases hb : opts.convertibleFunc (GoType.tStruct sname gs) (SrcVal.vMapSI nested)
      · simp [hb] at hconv
      · rfl
    rw [safeField.eq_def] at hsafe
    dsimp only at hsafe
    rw [if_neg hskip, if_neg hanon, hlook] at hsafe
    try dsimp only at hsafe
    rw [if_pos hcv] at hsafe
    try dsimp only at hsafe
    rw [compareField, if_neg hskip, if_neg hanon, hlook]
    dsimp only
    rw [if_neg hconv]
    try dsimp only
    obtain ⟨res2, hres2⟩ := Option.isSome_iff_exists.mp (ih hsafe)
    rw [hres2]
    rfl
  · -- struct field with a non-map value: ruled out by safety
    intro src opts res fname ftag fanon pf hskip hanon srcField hlook sname gs hnotmap hconv hsafe
    exfalso
    have hcv : opts.convertibleFunc (GoType.tStruct sname gs) srcField = true := by
      rcases hb : opts.convertibleFunc (GoType.tStruct sname gs) srcField
      · simp [hb] at hconv
      · rfl
    rw [safeField.eq_def] at hsafe
    dsimp only at hsafe
    rw [if_neg hskip, if_neg hanon, hlook] at hsafe
    try dsimp only at hsafe
    rw [if_pos hcv] at hsafe
    cases srcField with
    | vMapSI m => exact hnotmap m rfl
    | _ => exact Bool.noConfusion hsafe
  · -- nested pointer-to-struct field with a map[string]interface{} value
    intro src opts res fname ftag fanon pf hskip hanon sname gs nested hlook hconv ih hsafe
    have hcv : opts.convertibleFunc (GoType.tPtr (GoType.tStruct sname gs))
        (SrcVal.vMapSI nested) = true := by
      rcases hb : opts.convertibleFunc (GoType.tPtr (GoType.tStruct sname gs)) (SrcVal.vMapSI nested)
      · simp [hb] at hconv
      · rfl
    rw [safeField.eq_def] at hsafe
    dsimp only at hsafe
    rw [if_neg hskip, if_neg hanon, hlook] at hsafe
    try dsimp only at hsafe
    rw [if_pos hcv] at hsafe
    try dsimp only at hsafe
    rw [compareField, if_neg hskip, if_neg hanon, hlook]
    dsimp only
    rw [if_neg hconv]
    try dsimp only
    obtain ⟨res2, hres2⟩ := Option.isSome_iff_exists.mp (ih hsafe)
    rw [hres2]
    rfl
  · -- pointer-to-struct field with a non-map value: ruled out by safety
    intro src opts res fname ftag fanon pf hskip hanon srcField hlook sname gs hnotmap hconv hsafe
    exfalso
    have hcv : opts.convertibleFunc (GoType.tPtr (GoType.tStruct sname gs)) srcField = true := by
      rcases hb : opts.convertibleFunc (GoType.tPtr (GoType.tStruct sname gs)) srcField
      · simp [hb] at hconv
      · rfl
    rw [safeField.eq_def] at hsafe
    dsimp only at hsafe
    rw [if_neg hskip, if_neg hanon, hlook] at hsafe
    try dsimp only at hsafe
    rw [if_pos hcv] at hsafe
    cases srcField with
    | vMapSI m => exact hnotmap m rfl
    | _ => exact Bool.noConfusion hsafe
  · -- convertible field of non-record shape
    intro src opts res fname ftag fanon ftype pf hskip hanon srcField hlook hconv hns hnp hsafe
    rw [compareField, if_neg hskip, if_neg hanon, hlook]
    dsimp only
    rw [if_neg hconv]
    cases ftype with
    | tStruct sn gs => exact absurd rfl (hns sn gs)
    | tPtr e =>
      cases e with
      | tStruct sn gs => exact absurd rfl (hnp sn gs)
      | _ => rfl
    | _ => rfl
  · -- missing field
    intro src opts res fname ftag fanon ftype pf hskip hanon hlook hsafe
    rw [compareField, if_neg hskip, if_neg hanon, hlook]
    rfl
  · -- empty field list
    intro src opts res hsafe
    rw [compareFields]
    rfl
  · -- field loop: the head cannot panic on safe input
    intro src opts res f rest hnone ih hsafe
    rw [safeFields, Bool.and_eq_true] at hsafe
    have h1 := ih hsafe.1
    rw [hnone] at h1
    exact Bool.noConfusion h1
  · -- field loop: continue with the tail
    intro src opts res f rest res2 hsome ihf ihrest hsafe
    rw [safeFields, Bool.and_eq_true] at hsafe
    rw [compareFields, hsome]
    exact ihrest hsafe.2

/-- C1 amended: with every embedded field a struct and every accepted
struct-shaped field value an actual `map[string]interface{}` (the
`safeFields` side condition), `CompareMapToStruct` on a non-nil pointer
to a struct and a non-nil source returns a result with a nil error for
every options value. -/
theorem compareMapToStruct_total_of_safe (sname : String) (fs : List GoField) (src : SrcMap)
    (opts : Option CompareOpts)
    (hsafe : safeFields (resolveOpts opts) fs src = true) :
    ∃ r, CompareMapToStruct (.ptr (.tStruct sname fs)) (some src) opts = .ok r := by
  have h := compare_total_of_safe (.tStruct sname fs) src (resolveOpts opts) ⟨[], []⟩
    sname fs rfl hsafe
  obtain ⟨r, hr⟩ := Option.isSome_iff_exists.mp h
  refine ⟨r, ?_⟩
  rw [CompareMapToStruct]
  try dsimp only
  try rw [if_pos (show isStructT (GoType.tStruct sname fs) = true from rfl)]
  rw [hr]

/-- Witness for the hypothesis of `compareMapToStruct_total_of_safe`. -/
theorem compareMapToStruct_total_of_safe_witness :
    (safeFields (resolveOpts none) [.mk "Foo" "" false .tString] [("Foo", .vString "hi")]
        = true) ∧
    ∃ r, CompareMapToStruct (.ptr (.tStruct "T" [.mk "Foo" "" false .tString]))
        (some [("Foo", .vString "hi")]) none = .ok r :=
  ⟨by decide,
   compareMapToStruct_total_of_safe "T" [.mk "Foo" "" false .tString]
     [("Foo", .vString "hi")] none (by decide)⟩

/-- Destination with a struct-typed field, for the panic counterexample. -/
def foreignMapDst : GoType :=
  .tStruct "T" [.mk "Cat" "" false (.tStruct "Inner" [.mk "A" "" false .tString])]

/-- Destination with an embedded pointer-to-struct field. -/
def embeddedPtrDst : GoType :=
  .tStruct "T" [.mk "Inner" "" true (.tPtr (.tStruct "Inner" []))]

/-- C1 counterexample: with a struct-typed field whose source value is a
mapping of a different concrete type (`map[string]string`), and likewise
with an embedded pointer-to-struct field, `CompareMapToStruct` panics
(the type assertion, resp. `NumField` on a pointer) instead of returning
a result. -/
theorem compareMapToStruct_panics_on_bad_shapes :
    CompareMapToStruct (.ptr foreignMapDst) (some [("Cat", .vMapSS [])]) none = .panic ∧
    CompareMapToStruct (.ptr embeddedPtrDst) (some []) none = .panic :=
  ⟨by decide, by decide⟩


end MapSchema
